import Mathlib

/-!
Verification of the TAYA permission/hierarchy core.

This file shallowly embeds the permission-merge engine
(`PermissionService`, file part_007) and the management-hierarchy graph
(`HierarchyService`, TeamService.ts) of the TAYA repository, and proves
properties of the embedded definitions.  Database tables are modelled as
in-memory lists inside a `Store`; each service method becomes a function
from a store to a result (and possibly an updated store).  JSON documents
are modelled by the inductive `JVal`; JavaScript objects become
association lists whose operations (`getKey`, `setKey`, `spread`) mirror
property lookup, assignment and object spread.
-/

set_option autoImplicit false

namespace TAYA

/-- JSON-like values stored in permission documents: booleans, `null`, and
string-keyed objects (the only shapes the permission code produces). -/
inductive JVal where
  | bool (b : Bool)
  | null
  | obj (fields : List (String × JVal))

/-- A JavaScript object: an association list of fields (keys are unique in
objects produced by the source code). -/
abbrev Obj := List (String × JVal)

/-- JS property read `o[k]`: the value of the first field named `k`. -/
def getKey (o : Obj) (k : String) : Option JVal :=
  (o.find? (fun p => p.1 == k)).map (·.2)

/-- JS `k in o`. -/
def hasKey (o : Obj) (k : String) : Bool :=
  (getKey o k).isSome

/-- JS property write `o[k] = v`: replaces the value in place if the key
exists, otherwise appends a new field. -/
def setKey (o : Obj) (k : String) (v : JVal) : Obj :=
  if hasKey o k then o.map (fun p => if p.1 == k then (k, v) else p)
  else o ++ [(k, v)]

/-- JS object spread `\x7b...a, ...b\x7d`: all fields of `b` assigned, in
order, on top of a copy of `a`. -/
def spread (a : Obj) : Obj → Obj
  | [] => a
  | (k, v) :: rest => spread (setKey a k v) rest

/-- The fields obtained when a value is spread as an object: a non-object
(or a missing value) contributes no fields, as with JS `\x7b...v\x7d`. -/
def fieldsOf : Option JVal → Obj
  | some (.obj f) => f
  | _ => []

/-- JS strict comparison `v === true`. -/
def isTrue : JVal → Bool
  | .bool true => true
  | _ => false

/-- `PermissionService.mergePermissions` (part_007 lines 548-564): for each
category of the override whose value is a non-null object, replace the
merged category by the spread of the current value with the override's
fields; other override entries are skipped. -/
def mergePermissions (base : Obj) : Obj → Obj
  | [] => base
  | (category, perms) :: rest =>
    match perms with
    | .obj p =>
        mergePermissions
          (setKey base category (.obj (spread (fieldsOf (getKey base category)) p)))
          rest
    | _ => mergePermissions base rest

/-- The walk of `PermissionService.checkPermission` (part_007 lines
342-351): descend through object fields along the path, returning `false`
as soon as the current value is not a non-null object containing the next
part, and finally test `current === true`. -/
def walkVal : JVal → List String → Bool
  | v, [] => isTrue v
  | .obj fields, p :: ps =>
      match getKey fields p with
      | some v => walkVal v ps
      | none => false
  | _, _ :: _ => false

/-- Pure path lookup used to state what the walk grants: `some v` when the
path descends through objects to the value `v`, `none` if any step is
missing or hits a non-object. -/
def pathLookup : JVal → List String → Option JVal
  | v, [] => some v
  | .obj fields, p :: ps =>
      match getKey fields p with
      | some v => pathLookup v ps
      | none => none
  | _, _ :: _ => none

/-- Splits a string at `'.'`, as JS `s.split('.')` (and Lean's
`String.splitOn "."`) does: `""` yields `[""]`, and empty segments are
kept.  Written recursively over the character list so that it reduces
definitionally. -/
def splitDotAux : List Char → List Char → List String
  | [], acc => [String.mk acc.reverse]
  | c :: cs, acc =>
      if c = '.' then String.mk acc.reverse :: splitDotAux cs []
      else splitDotAux cs (c :: acc)

/-- JS `permission.split('.')`. -/
def splitDot (s : String) : List String :=
  splitDotAux s.data []

/-- The nested-path write of `updateCustomPermission` (part_007 lines
590-598): walk the dotted path, replacing missing or non-object
intermediates by fresh empty objects, and set the final leaf.  A `null`
intermediate survives the source's `typeof` guard and makes the next step
of the JS loop throw a `TypeError`; this is modelled by returning
`none`. -/
def setPath (o : Obj) (parts : List String) (v : Bool) : Option Obj :=
  match parts with
  | [] => some o
  | [p] => some (setKey o p (.bool v))
  | p :: ps =>
      match getKey o p with
      | some .null => none
      | some (.obj f) => (setPath f ps v).map (fun f' => setKey o p (.obj f'))
      | _ => (setPath [] ps v).map (fun f' => setKey o p (.obj f'))

/-- Key list of an object. -/
def keys (o : Obj) : List String := o.map Prod.fst

/-- Well-formedness of a value sitting inside a permission document: an
object has no duplicate keys, a boolean is fine, and `null` does not occur
(the source never stores `null` inside a permission document). -/
def valWF : JVal → Prop
  | .obj f => (keys f).Nodup
  | .bool _ => True
  | .null => False

instance valWF.instDecidable : (v : JVal) → Decidable (valWF v)
  | .obj f => inferInstanceAs (Decidable ((keys f).Nodup))
  | .bool _ => .isTrue trivial
  | .null => .isFalse (fun h => h)

/-- Well-formedness of a permission document as the JS code produces it:
unique keys at the top level and well-formed category values. -/
def DocWF (o : Obj) : Prop :=
  (keys o).Nodup ∧ ∀ kv ∈ o, valWF kv.2

instance DocWF.instDecidable (o : Obj) : Decidable (DocWF o) :=
  inferInstanceAs (Decidable (_ ∧ _))

/-- The six base roles (`UserRole` in the global types). -/
inductive Role where
  | super_admin
  | org_admin
  | senior_manager
  | manager
  | lead
  | member
  deriving DecidableEq, BEq, Repr

/-- `DEFAULT_ROLE_PERMISSIONS.super_admin` (part_007 lines 10-49). -/
def superAdminPerms : Obj :=
  [("tasks", .obj [("view_own", .bool true), ("view_team", .bool true),
      ("create", .bool true), ("edit_own", .bool true), ("edit_team", .bool true),
      ("delete_own", .bool true), ("approve", .bool true)]),
   ("timesheet", .obj [("view_own", .bool true), ("view_team", .bool true),
      ("edit_own", .bool true), ("approve_team", .bool true)]),
   ("leaves", .obj [("view_own", .bool true), ("view_team", .bool true),
      ("request", .bool true), ("approve_team", .bool true)]),
   ("resources", .obj [("view", .bool true), ("book", .bool true),
      ("allocate", .bool true), ("manage", .bool true)]),
   ("analytics", .obj [("view_own", .bool true), ("view_team", .bool true),
      ("view_org", .bool true)]),
   ("members", .obj [("view", .bool true), ("add", .bool true),
      ("edit", .bool true), ("remove", .bool true)])]

/-- `DEFAULT_ROLE_PERMISSIONS.org_admin` (part_007 lines 50-89): identical
booleans to the super-admin document. -/
def orgAdminPerms : Obj :=
  [("tasks", .obj [("view_own", .bool true), ("view_team", .bool true),
      ("create", .bool true), ("edit_own", .bool true), ("edit_team", .bool true),
      ("delete_own", .bool true), ("approve", .bool true)]),
   ("timesheet", .obj [("view_own", .bool true), ("view_team", .bool true),
      ("edit_own", .bool true), ("approve_team", .bool true)]),
   ("leaves", .obj [("view_own", .bool true), ("view_team", .bool true),
      ("request", .bool true), ("approve_team", .bool true)]),
   ("resources", .obj [("view", .bool true), ("book", .bool true),
      ("allocate", .bool true), ("manage", .bool true)]),
   ("analytics", .obj [("view_own", .bool true), ("view_team", .bool true),
      ("view_org", .bool true)]),
   ("members", .obj [("view", .bool true), ("add", .bool true),
      ("edit", .bool true), ("remove", .bool true)])]

/-- `DEFAULT_ROLE_PERMISSIONS.senior_manager` (part_007 lines 90-129). -/
def seniorManagerPerms : Obj :=
  [("tasks", .obj [("view_own", .bool true), ("view_team", .bool true),
      ("create", .bool true), ("edit_own", .bool true), ("edit_team", .bool true),
      ("delete_own", .bool false), ("approve", .bool true)]),
   ("timesheet", .obj [("view_own", .bool true), ("view_team", .bool true),
      ("edit_own", .bool true), ("approve_team", .bool true)]),
   ("leaves", .obj [("view_own", .bool true), ("view_team", .bool true),
      ("request", .bool true), ("approve_team", .bool true)]),
   ("resources", .obj [("view", .bool true), ("book", .bool true),
      ("allocate", .bool true), ("manage", .bool false)]),
   ("analytics", .obj [("view_own", .bool true), ("view_team", .bool true),
      ("view_org", .bool false)]),
   ("members", .obj [("view", .bool true), ("add", .bool true),
      ("edit", .bool true), ("remove", .bool false)])]

/-- `DEFAULT_ROLE_PERMISSIONS.manager` (part_007 lines 130-169). -/
def managerPerms : Obj :=
  [("tasks", .obj [("view_own", .bool true), ("view_team", .bool true),
      ("create", .bool true), ("edit_own", .bool true), ("edit_team", .bool true),
      ("delete_own", .bool false), ("approve", .bool true)]),
   ("timesheet", .obj [("view_own", .bool true), ("view_team", .bool true),
      ("edit_own", .bool true), ("approve_team", .bool true)]),
   ("leaves", .obj [("view_own", .bool true), ("view_team", .bool true),
      ("request", .bool true), ("approve_team", .bool true)]),
   ("resources", .obj [("view", .bool true), ("book", .bool true),
      ("allocate", .bool true), ("manage", .bool false)]),
   ("analytics", .obj [("view_own", .bool true), ("view_team", .bool true),
      ("view_org", .bool false)]),
   ("members", .obj [("view", .bool true), ("add", .bool false),
      ("edit", .bool false), ("remove", .bool false)])]

/-- `DEFAULT_ROLE_PERMISSIONS.lead` (part_007 lines 170-209). -/
def leadPerms : Obj :=
  [("tasks", .obj [("view_own", .bool true), ("view_team", .bool true),
      ("create", .bool true), ("edit_own", .bool true), ("edit_team", .bool false),
      ("delete_own", .bool false), ("approve", .bool false)]),
   ("timesheet", .obj [("view_own", .bool true), ("view_team", .bool true),
      ("edit_own", .bool true), ("approve_team", .bool false)]),
   ("leaves", .obj [("view_own", .bool true), ("view_team", .bool true),
      ("request", .bool true), ("approve_team", .bool false)]),
   ("resources", .obj [("view", .bool true), ("book", .bool true),
      ("allocate", .bool false), ("manage", .bool false)]),
   ("analytics", .obj [("view_own", .bool true), ("view_team", .bool false),
      ("view_org", .bool false)]),
   ("members", .obj [("view", .bool true), ("add", .bool false),
      ("edit", .bool false), ("remove", .bool false)])]

/-- `DEFAULT_ROLE_PERMISSIONS.member` (part_007 lines 210-249). -/
def memberPerms : Obj :=
  [("tasks", .obj [("view_own", .bool true), ("view_team", .bool false),
      ("create", .bool true), ("edit_own", .bool true), ("edit_team", .bool false),
      ("delete_own", .bool false), ("approve", .bool false)]),
   ("timesheet", .obj [("view_own", .bool true), ("view_team", .bool false),
      ("edit_own", .bool true), ("approve_team", .bool false)]),
   ("leaves", .obj [("view_own", .bool true), ("view_team", .bool false),
      ("request", .bool true), ("approve_team", .bool false)]),
   ("resources", .obj [("view", .bool true), ("book", .bool true),
      ("allocate", .bool false), ("manage", .bool false)]),
   ("analytics", .obj [("view_own", .bool true), ("view_team", .bool false),
      ("view_org", .bool false)]),
   ("members", .obj [("view", .bool true), ("add", .bool false),
      ("edit", .bool false), ("remove", .bool false)])]

/-- The role-default table `DEFAULT_ROLE_PERMISSIONS` (part_007 lines
9-250).  The source's fallback `|| DEFAULT_ROLE_PERMISSIONS.member` is
unreachable here because the role type is closed. -/
def DEFAULT_ROLE_PERMISSIONS : Role → Obj
  | .super_admin => superAdminPerms
  | .org_admin => orgAdminPerms
  | .senior_manager => seniorManagerPerms
  | .manager => managerPerms
  | .lead => leadPerms
  | .member => memberPerms

/-- A row of the `users` table (the fields the core reads). -/
structure UserRec where
  id : String
  role : Role
  organization_id : String
  active : Bool
  deriving DecidableEq, BEq, Repr

/-- A row of the `user_permissions` table (a `PermissionAssignment`). -/
structure UserPermRec where
  id : Nat
  user_id : String
  organization_id : Option String
  team_id : Option String
  template_id : Option String
  source : Option String
  custom_permissions : Option Obj
  effective_permissions : Option Obj
  updated_at : Nat

/-- A row of the `permission_templates` table. -/
structure TemplateRec where
  id : String
  organization_id : Option String
  name : String
  permissions : Obj

/-- Edge scope (`'team' | 'org_wide'`). -/
inductive Scope where
  | team
  | org_wide
  deriving DecidableEq, BEq, Repr

/-- A row of the `management_hierarchy` table (a `ManagementEdge`). -/
structure EdgeRec where
  organization_id : String
  manager_id : String
  manages_user_id : String
  team_id : Option String
  scope : Scope
  level : Nat
  active : Bool
  started_at : Nat
  deriving DecidableEq, Repr

/-- The persistent store the services run against.  `now` is a logical
clock stamped onto writes; `nextId` numbers freshly inserted
`user_permissions` rows. -/
structure Store where
  users : List UserRec
  userPermissions : List UserPermRec
  templates : List TemplateRec
  edges : List EdgeRec
  nextId : Nat
  now : Nat

/-- The optional `(orgId, teamId)` context passed to the permission
service. -/
structure Ctx where
  orgId : Option String := none
  teamId : Option String := none

/-- Error taxonomy of the two services (each constructor stands for one
`throw new Error(...)` site). -/
inductive Err where
  | userNotFound
  | templateNotFound
  | selfManagement
  | crossOrganization
  | duplicateEdge
  | typeError
  deriving DecidableEq, Repr

/-- JS truthiness of an optional string: absent, `null` and `""` are
falsy. -/
def strTruthy : Option String → Bool
  | some s => !(s == "")
  | none => false

/-- The JS expression `x || null` on an optional string. -/
def orNull (o : Option String) : Option String :=
  if strTruthy o then o else none

/-- Supabase `.single()`: the row when the filter matched exactly one,
otherwise `null` (the callers discard the error object). -/
def singleRow {α : Type} : List α → Option α
  | [a] => some a
  | _ => none

/-- Supabase `.order('updated_at', desc).limit(1)` followed by taking the
first row: the first row carrying the maximal `updated_at`. -/
def mostRecent (l : List UserPermRec) : Option UserPermRec :=
  l.foldl
    (fun acc p =>
      match acc with
      | none => some p
      | some q => if p.updated_at > q.updated_at then some p else some q)
    none

/-- Supabase `.order('level', asc).limit(1).single()`: the first row
carrying the minimal `level`. -/
def minByLevel (l : List EdgeRec) : Option EdgeRec :=
  l.foldl
    (fun acc e =>
      match acc with
      | none => some e
      | some a => if e.level < a.level then some e else some a)
    none

/-- `UserService.getUser`: primary-key lookup in the `users` table. -/
def getUser (s : Store) (userId : String) : Option UserRec :=
  s.users.find? (fun u => u.id == userId)

/-- `PermissionService.getTemplate`: primary-key lookup in
`permission_templates`. -/
def getTemplate (s : Store) (templateId : String) : Option TemplateRec :=
  s.templates.find? (fun t => t.id == templateId)

/-- The `user_permissions` filter built by `getEffectivePermissions`,
`applyTemplate` and `updateCustomPermission`: always `user_id = userId`,
plus an equality filter on `organization_id` (resp. `team_id`) only when
the context carries a truthy `orgId` (resp. `teamId`). -/
def permMatches (ctx : Ctx) (userId : String) (p : UserPermRec) : Bool :=
  p.user_id == userId
    && (!strTruthy ctx.orgId || p.organization_id == ctx.orgId)
    && (!strTruthy ctx.teamId || p.team_id == ctx.teamId)

/-- The template layer of the recompute (part_007 lines 303-308 and
609-614): when the assignment's `template_id` is truthy and the template
exists, merge its permissions onto the accumulator. -/
def applyTemplateMerge (s : Store) (effective : Obj) (templateId : Option String) : Obj :=
  match templateId with
  | some tid =>
      if tid == "" then effective
      else
        match getTemplate s tid with
        | some t => mergePermissions effective t.permissions
        | none => effective
  | none => effective

/-- The recompute of `getEffectivePermissions` (part_007 lines 299-313):
start from a copy of the role defaults, merge the template layer, then
merge the custom overrides when present. -/
def recomputeEffective (s : Store) (rolePermissions : Obj)
    (templateId : Option String) (customPermissions : Option Obj) : Obj :=
  let effective := rolePermissions
  let effective := applyTemplateMerge s effective templateId
  match customPermissions with
  | some c => mergePermissions effective c
  | none => effective

/-- `PermissionService.getEffectivePermissions` (part_007 lines 259-325).
Resolves the user's role defaults; looks up the most-recently-updated
matching assignment; with no assignment returns the role defaults
unmerged; with a cached effective document returns it as is (the source
checks only that the field is non-null); otherwise recomputes, writes the
new cache back (stamping `updated_at`), and returns it. -/
def getEffectivePermissions (s : Store) (userId : String) (ctx : Ctx) :
    Except Err (Obj × Store) :=
  match getUser s userId with
  | none => .error .userNotFound
  | some user =>
    let rolePermissions := DEFAULT_ROLE_PERMISSIONS user.role
    let userPerms := s.userPermissions.filter (permMatches ctx userId)
    match mostRecent userPerms with
    | none => .ok (rolePermissions, s)
    | some userPerm =>
      match userPerm.effective_permissions with
      | some cached => .ok (cached, s)
      | none =>
        let effective :=
          recomputeEffective s rolePermissions userPerm.template_id
            userPerm.custom_permissions
        let s' := { s with
          userPermissions := s.userPermissions.map (fun p =>
            if p.id == userPerm.id then
              { p with effective_permissions := some effective, updated_at := s.now }
            else p),
          now := s.now + 1 }
        .ok (effective, s')

/-- `PermissionService.checkPermission` (part_007 lines 334-352): resolve
the effective document, then walk the dotted path. -/
def checkPermission (s : Store) (userId : String) (permission : String) (ctx : Ctx) :
    Except Err (Bool × Store) :=
  match getEffectivePermissions s userId ctx with
  | .error e => .error e
  | .ok (effective, s') => .ok (walkVal (.obj effective) (splitDot permission), s')

/-- `PermissionService.updateCustomPermission` (part_007 lines 569-640):
load the single matching assignment (if exactly one matches), extend its
custom overrides along the dotted path, recompute the effective document
from the current role defaults, the existing template layer and the new
overrides, and update the row - or insert a fresh row when none
matched. -/
def updateCustomPermission (s : Store) (userId : String) (permission : String)
    (value : Bool) (ctx : Ctx) : Except Err Store :=
  let existing := singleRow (s.userPermissions.filter (permMatches ctx userId))
  let parts := splitDot permission
  let customPerms0 :=
    match existing with
    | some r => r.custom_permissions.getD []
    | none => []
  match setPath customPerms0 parts value with
  | none => .error .typeError
  | some customPerms =>
    match getUser s userId with
    | none => .error .userNotFound
    | some user =>
      let rolePermissions := DEFAULT_ROLE_PERMISSIONS user.role
      let effective := rolePermissions
      let effective :=
        match existing with
        | some r => applyTemplateMerge s effective r.template_id
        | none => effective
      let effective := mergePermissions effective customPerms
      match existing with
      | some r =>
          .ok { s with
            userPermissions := s.userPermissions.map (fun p =>
              if p.id == r.id then
                { p with
                  custom_permissions := some customPerms,
                  effective_permissions := some effective,
                  source := some "custom",
                  updated_at := s.now }
              else p),
            now := s.now + 1 }
      | none =>
          .ok { s with
            userPermissions := s.userPermissions ++
              [{ id := s.nextId,
                 user_id := userId,
                 organization_id := orNull ctx.orgId,
                 team_id := orNull ctx.teamId,
                 template_id := none,
                 source := some "custom",
                 custom_permissions := some customPerms,
                 effective_permissions := some effective,
                 updated_at := s.now }],
            nextId := s.nextId + 1,
            now := s.now + 1 }

/-- `PermissionService.grantPermission` (part_007 lines 360-366). -/
def grantPermission (s : Store) (userId permission : String) (ctx : Ctx) :
    Except Err Store :=
  updateCustomPermission s userId permission true ctx

/-- `PermissionService.revokePermission` (part_007 lines 374-380). -/
def revokePermission (s : Store) (userId permission : String) (ctx : Ctx) :
    Except Err Store :=
  updateCustomPermission s userId permission false ctx

/-- `PermissionService.applyTemplate` (part_007 lines 473-543): fetch the
template, load the single matching assignment, recompute the stored
effective document as role defaults merged with the template only, and
update the row (leaving `custom_permissions` untouched) or insert a fresh
one. -/
def applyTemplate (s : Store) (userId templateId : String) (ctx : Ctx) :
    Except Err (UserPermRec × Store) :=
  match getTemplate s templateId with
  | none => .error .templateNotFound
  | some template =>
    let existing := singleRow (s.userPermissions.filter (permMatches ctx userId))
    match getUser s userId with
    | none => .error .userNotFound
    | some user =>
      let rolePermissions := DEFAULT_ROLE_PERMISSIONS user.role
      let effective := mergePermissions rolePermissions template.permissions
      match existing with
      | some row =>
          let row' := { row with
            template_id := some templateId,
            source := some "template",
            effective_permissions := some effective,
            updated_at := s.now }
          .ok (row', { s with
            userPermissions := s.userPermissions.map (fun p =>
              if p.id == row.id then
                { p with
                  template_id := some templateId,
                  source := some "template",
                  effective_permissions := some effective,
                  updated_at := s.now }
              else p),
            now := s.now + 1 })
      | none =>
          let row' : UserPermRec :=
            { id := s.nextId,
              user_id := userId,
              organization_id := orNull ctx.orgId,
              team_id := orNull ctx.teamId,
              template_id := some templateId,
              source := some "template",
              custom_permissions := none,
              effective_permissions := some effective,
              updated_at := s.now }
          .ok (row', { s with
            userPermissions := s.userPermissions ++ [row'],
            nextId := s.nextId + 1,
            now := s.now + 1 })

/-- `HierarchyService.getDirectReports` (TeamService.ts lines 168-196):
active level-1 edges from the manager, optionally filtered by team, joined
to their managed users, keeping only existing active users. -/
def getDirectReports (s : Store) (managerId : String) (teamId : Option String) :
    List UserRec :=
  let rows := s.edges.filter (fun e =>
    e.manager_id == managerId && e.active && e.level == 1
      && (!strTruthy teamId || e.team_id == teamId))
  rows.filterMap (fun e =>
    match s.users.find? (fun u => u.id == e.manages_user_id) with
    | some u => if u.active then some u else none
    | none => none)

/-- `HierarchyService.getAllReports` (TeamService.ts lines 203-225),
indexed by fuel because the source recursion need not terminate: collect
the direct reports, then for each of them recurse and append the
still-unseen users.  The de-duplication set is rebuilt afresh in every
call, exactly as in the source.  `none` means the fuel ran out, i.e. the
source recursion reaches that depth without completing. -/
def getAllReportsFuel (s : Store) : Nat → String → Option (List UserRec)
  | 0, _ => none
  | n + 1, managerId =>
    let directReports := getDirectReports s managerId none
    ((directReports.foldl
        (fun acc report =>
          acc.bind (fun (st : List String × List UserRec) =>
            (getAllReportsFuel s n report.id).map (fun indirect =>
              indirect.foldl
                (fun st2 u =>
                  if st2.1.contains u.id then st2
                  else (st2.1 ++ [u.id], st2.2 ++ [u]))
                st)))
        (some (directReports.map (·.id), directReports))).map (·.2))

/-- Active edges pointing at a user (the direct-manager query of
`getManagementChain`). -/
def managerRowsOf (s : Store) (userId : String) : List EdgeRec :=
  s.edges.filter (fun e => e.manages_user_id == userId && e.active)

/-- The `while` loop of `HierarchyService.getManagementChain`
(TeamService.ts lines 253-288).  The fuel only bounds the iteration count;
every iteration marks a previously unvisited id as visited, so the bound
chosen in `getManagementChain` is never reached. -/
def chainLoop (s : Store) : Nat → Option String → List String → List UserRec → List UserRec
  | 0, _, _, chain => chain
  | n + 1, currentUserId, visited, chain =>
    match currentUserId with
    | none => chain
    | some cid =>
      if visited.contains cid then chain
      else
        match minByLevel (managerRowsOf s cid) with
        | none => chain
        | some e =>
          match s.users.find? (fun u => u.id == e.manager_id) with
          | none => chain
          | some manager =>
            if manager.active && !(chain.any (fun u => u.id == manager.id)) then
              chainLoop s n (some manager.id) (cid :: visited) (chain ++ [manager])
            else chain

/-- `HierarchyService.getManagementChain` (TeamService.ts lines 253-288):
walk upward one minimal-level active edge at a time, guarding against
revisits. -/
def getManagementChain (s : Store) (userId : String) : List UserRec :=
  chainLoop s (s.users.length + 2) (some userId) [] []

/-- `HierarchyService.calculateManagementLevel` (TeamService.ts lines
322-348): 1 when exactly one direct active edge exists; otherwise the
1-based position of the manager in the managed user's upward chain; 1 by
default. -/
def calculateManagementLevel (s : Store) (managerId managesUserId : String) : Nat :=
  let direct := s.edges.filter (fun e =>
    e.manager_id == managerId && e.manages_user_id == managesUserId && e.active)
  match singleRow direct with
  | some _ => 1
  | none =>
    let chain := getManagementChain s managesUserId
    match chain.findIdx? (fun u => u.id == managerId) with
    | some i => i + 1
    | none => 1

/-- `HierarchyService.assignManager` (TeamService.ts lines 71-133): reject
self-management, unknown users, cross-organization pairs and an existing
active edge for the exact tuple; then compute the level and insert the new
active edge.  There is no cycle check anywhere in the source. -/
def assignManager (s : Store) (managerId managesUserId : String)
    (teamId : Option String) (scope : Scope) : Except Err (EdgeRec × Store) :=
  if managerId == managesUserId then .error .selfManagement
  else
    match getUser s managerId, getUser s managesUserId with
    | some manager, some managedUser =>
      if !(manager.organization_id == managedUser.organization_id) then
        .error .crossOrganization
      else
        let existing := singleRow (s.edges.filter (fun e =>
          e.manager_id == managerId && e.manages_user_id == managesUserId
            && e.team_id == orNull teamId && e.scope == scope && e.active))
        match existing with
        | some _ => .error .duplicateEdge
        | none =>
          let level := calculateManagementLevel s managerId managesUserId
          let edge : EdgeRec :=
            { organization_id := manager.organization_id,
              manager_id := managerId,
              manages_user_id := managesUserId,
              team_id := orNull teamId,
              scope := scope,
              level := level,
              active := true,
              started_at := s.now }
          .ok (edge, { s with edges := s.edges ++ [edge], now := s.now + 1 })
    | _, _ => .error .userNotFound

/-- The value stored at a category/action leaf of a document: `some v`
when the category is an object containing the action. -/
def leaf (o : Obj) (cat act : String) : Option JVal :=
  match getKey o cat with
  | some (.obj p) => getKey p act
  | _ => none

theorem getKey_nil (k : String) : getKey [] k = none := rfl

theorem getKey_cons (k0 : String) (v0 : JVal) (o : Obj) (k : String) :
    getKey ((k0, v0) :: o) k = if k0 = k then some v0 else getKey o k := by
  unfold getKey
  by_cases h : k0 = k
  · rw [List.find?_cons_of_pos _ (by simp [h])]
    simp [h]
  · rw [List.find?_cons_of_neg _ (by simp [h])]
    simp [h]

theorem getKey_eq_none_iff : ∀ (o : Obj) (k : String),
    getKey o k = none ↔ k ∉ keys o := by
  intro o
  induction o with
  | nil => intro k; simp [getKey_nil, keys]
  | cons p rest ih =>
    intro k
    obtain ⟨k0, v0⟩ := p
    rw [getKey_cons]
    simp only [keys, List.map_cons, List.mem_cons, not_or]
    by_cases h : k0 = k
    · simp [h]
    · simp only [h, if_false]
      rw [ih k]
      unfold keys
      constructor
      · intro hn
        exact ⟨fun hh => h hh.symm, hn⟩
      · intro hn
        exact hn.2

theorem hasKey_eq_false_iff (o : Obj) (k : String) :
    hasKey o k = false ↔ k ∉ keys o := by
  rw [← getKey_eq_none_iff]
  unfold hasKey
  cases getKey o k <;> simp

theorem getKey_append : ∀ (a b : Obj) (k : String),
    getKey (a ++ b) k =
      match getKey a k with
      | some v => some v
      | none => getKey b k := by
  intro a
  induction a with
  | nil => intro b k; simp [getKey_nil]
  | cons p rest ih =>
    intro b k
    obtain ⟨k0, v0⟩ := p
    rw [List.cons_append, getKey_cons, getKey_cons]
    by_cases h : k0 = k
    · simp [h]
    · simp only [h, if_false]
      exact ih b k

theorem getKey_mapReplace : ∀ (o : Obj) (k : String) (v : JVal) (k' : String),
    getKey (o.map (fun p => if p.1 == k then (k, v) else p)) k' =
      if k' = k then (getKey o k).map (fun _ => v) else getKey o k' := by
  intro o
  induction o with
  | nil =>
    intro k v k'
    by_cases h : k' = k <;> simp [getKey_nil, h]
  | cons p rest ih =>
    intro k v k'
    obtain ⟨k0, v0⟩ := p
    by_cases h0 : k0 = k
    · subst h0
      simp only [List.map_cons, beq_self_eq_true, if_true]
      simp only [getKey_cons, ih]
      by_cases h' : k' = k0
      · subst h'
        simp
      · have h2 : ¬ k0 = k' := fun hh => h' hh.symm
        simp [h', h2]
    · simp only [List.map_cons, show (k0 == k) = false from by simp [h0],
        Bool.false_eq_true, if_false]
      simp only [getKey_cons, ih]
      by_cases h1 : k0 = k'
      · have h' : ¬ k' = k := fun hh => h0 (h1.trans hh)
        simp [h1, h', h0]
      · by_cases h' : k' = k <;> simp [h1, h', h0]

theorem getKey_setKey (o : Obj) (k : String) (v : JVal) (k' : String) :
    getKey (setKey o k v) k' = if k' = k then some v else getKey o k' := by
  unfold setKey
  by_cases h : hasKey o k
  · simp only [h, if_true]
    rw [getKey_mapReplace]
    unfold hasKey at h
    obtain ⟨w, hw⟩ := Option.isSome_iff_exists.mp h
    by_cases h' : k' = k <;> simp [h', hw]
  · have hfalse : hasKey o k = false := by simpa using h
    have hnone : getKey o k = none := by
      rw [getKey_eq_none_iff]
      exact (hasKey_eq_false_iff o k).mp hfalse
    simp only [hfalse, Bool.false_eq_true, if_false]
    rw [getKey_append]
    by_cases h' : k' = k
    · subst h'
      simp [hnone, getKey_cons]
    · cases hk' : getKey o k' with
      | some w => simp [h']
      | none =>
          have h2 : ¬ k = k' := fun hh => h' hh.symm
          simp [getKey_cons, h2, h', getKey_nil]

theorem mem_setKey (o : Obj) (k : String) (v : JVal) :
    ∀ kv ∈ setKey o k v, kv ∈ o ∨ kv = (k, v) := by
  intro kv hkv
  unfold setKey at hkv
  by_cases h : hasKey o k
  · simp only [h, if_true, List.mem_map] at hkv
    obtain ⟨p, hp, hfp⟩ := hkv
    by_cases hb : p.1 = k
    · simp only [hb, beq_self_eq_true, if_true] at hfp
      exact Or.inr hfp.symm
    · simp only [show (p.1 == k) = false by simp [hb], Bool.false_eq_true,
        if_false] at hfp
      exact Or.inl (hfp ▸ hp)
  · simp only [h, if_false] at hkv
    rcases List.mem_append.mp hkv with h1 | h2
    · exact Or.inl h1
    · simp only [List.mem_singleton] at h2
      exact Or.inr h2

theorem keys_setKey (o : Obj) (k : String) (v : JVal) :
    keys (setKey o k v) = if hasKey o k then keys o else keys o ++ [k] := by
  unfold setKey
  by_cases h : hasKey o k
  · simp only [h, if_true]
    unfold keys
    rw [List.map_map]
    apply List.map_congr_left
    intro p _
    by_cases hb : p.1 = k <;> simp [hb]
  · simp [h, keys]

theorem nodupKeys_setKey (o : Obj) (k : String) (v : JVal)
    (h : (keys o).Nodup) : (keys (setKey o k v)).Nodup := by
  rw [keys_setKey]
  by_cases hk : hasKey o k
  · simpa [hk] using h
  · have : k ∉ keys o := (hasKey_eq_false_iff o k).mp (by simpa using hk)
    simp [hk, List.nodup_append, h, this]

theorem getKey_spread_none : ∀ (b a : Obj) (k : String),
    getKey b k = none → getKey (spread a b) k = getKey a k := by
  intro b
  induction b with
  | nil => intro a k _; rfl
  | cons p rest ih =>
    intro a k h
    obtain ⟨k0, v0⟩ := p
    rw [getKey_cons] at h
    by_cases h0 : k0 = k
    · simp [h0] at h
    · simp only [h0, if_false] at h
      show getKey (spread (setKey a k0 v0) rest) k = getKey a k
      rw [ih _ _ h, getKey_setKey]
      have h2 : ¬ k = k0 := fun hh => h0 hh.symm
      simp [h2]

theorem getKey_spread_some : ∀ (b a : Obj) (k : String) (v : JVal),
    (keys b).Nodup → getKey b k = some v → getKey (spread a b) k = some v := by
  intro b
  induction b with
  | nil => intro a k v _ h; simp [getKey_nil] at h
  | cons p rest ih =>
    intro a k v hb h
    obtain ⟨k0, v0⟩ := p
    rw [getKey_cons] at h
    simp only [keys, List.map_cons, List.nodup_cons] at hb
    by_cases h0 : k0 = k
    · simp only [h0, if_true] at h
      subst h0
      have hrest : getKey rest k0 = none := by
        rw [getKey_eq_none_iff]
        exact hb.1
      show getKey (spread (setKey a k0 v0) rest) k0 = some v
      rw [getKey_spread_none _ _ _ hrest, getKey_setKey, if_pos rfl, h]
    · simp only [h0, if_false] at h
      exact ih _ _ _ hb.2 h

theorem getKey_mergePermissions_none : ∀ (ov base : Obj) (k : String),
    getKey ov k = none →
    getKey (mergePermissions base ov) k = getKey base k := by
  intro ov
  induction ov with
  | nil => intro base k _; rfl
  | cons p rest ih =>
    intro base k h
    obtain ⟨cat, perms⟩ := p
    rw [getKey_cons] at h
    by_cases h0 : cat = k
    · simp [h0] at h
    · simp only [h0, if_false] at h
      cases perms with
      | obj pf =>
          show getKey (mergePermissions (setKey base cat _) rest) k = getKey base k
          rw [ih _ _ h, getKey_setKey]
          have h2 : ¬ k = cat := fun hh => h0 hh.symm
          simp [h2]
      | bool b => exact ih base k h
      | null => exact ih base k h

theorem getKey_mergePermissions_obj : ∀ (ov base : Obj) (k : String) (p : Obj),
    (keys ov).Nodup → getKey ov k = some (.obj p) →
    getKey (mergePermissions base ov) k =
      some (.obj (spread (fieldsOf (getKey base k)) p)) := by
  intro ov
  induction ov with
  | nil => intro base k p _ h; simp [getKey_nil] at h
  | cons pr rest ih =>
    intro base k p hnd h
    obtain ⟨cat, perms⟩ := pr
    rw [getKey_cons] at h
    simp only [keys, List.map_cons, List.nodup_cons] at hnd
    by_cases h0 : cat = k
    · simp only [h0, if_true] at h
      subst h0
      cases perms with
      | obj pf =>
          have hp : pf = p := by injection h with h'; injection h'
          subst hp
          have hrest : getKey rest cat = none := by
            rw [getKey_eq_none_iff]; exact hnd.1
          show getKey (mergePermissions (setKey base cat _) rest) cat = _
          rw [getKey_mergePermissions_none _ _ _ hrest, getKey_setKey, if_pos rfl]
      | bool b => simp at h
      | null => simp at h
    · simp only [h0, if_false] at h
      cases perms with
      | obj pf =>
          show getKey (mergePermissions (setKey base cat _) rest) k = _
          rw [ih _ _ _ hnd.2 h, getKey_setKey]
          have h2 : ¬ k = cat := fun hh => h0 hh.symm
          simp [h2]
      | bool b => exact ih _ _ _ hnd.2 h
      | null => exact ih _ _ _ hnd.2 h

theorem getKey_mergePermissions_nonobj : ∀ (ov base : Obj) (k : String) (v : JVal),
    (keys ov).Nodup → getKey ov k = some v → (∀ f, v ≠ .obj f) →
    getKey (mergePermissions base ov) k = getKey base k := by
  intro ov
  induction ov with
  | nil => intro base k v _ h _; simp [getKey_nil] at h
  | cons pr rest ih =>
    intro base k v hnd h hv
    obtain ⟨cat, perms⟩ := pr
    rw [getKey_cons] at h
    simp only [keys, List.map_cons, List.nodup_cons] at hnd
    by_cases h0 : cat = k
    · simp only [h0, if_true] at h
      subst h0
      cases perms with
      | obj pf =>
          have hvv : v = JVal.obj pf := by
            injection h with h2
            exact h2.symm
          exact absurd hvv (hv pf)
      | bool b =>
          have hrest : getKey rest cat = none := by
            rw [getKey_eq_none_iff]; exact hnd.1
          show getKey (mergePermissions base rest) cat = getKey base cat
          exact getKey_mergePermissions_none rest base cat hrest
      | null =>
          have hrest : getKey rest cat = none := by
            rw [getKey_eq_none_iff]; exact hnd.1
          show getKey (mergePermissions base rest) cat = getKey base cat
          exact getKey_mergePermissions_none rest base cat hrest
    · simp only [h0, if_false] at h
      cases perms with
      | obj pf =>
          show getKey (mergePermissions (setKey base cat _) rest) k = _
          rw [ih _ _ _ hnd.2 h hv, getKey_setKey]
          have h2 : ¬ k = cat := fun hh => h0 hh.symm
          simp [h2]
      | bool b => exact ih _ _ _ hnd.2 h hv
      | null => exact ih _ _ _ hnd.2 h hv

theorem getKey_mergePermissions_isSome : ∀ (ov base : Obj) (k : String),
    (getKey base k).isSome →
    (getKey (mergePermissions base ov) k).isSome := by
  intro ov
  induction ov with
  | nil => intro base k h; exact h
  | cons pr rest ih =>
    intro base k h
    obtain ⟨cat, perms⟩ := pr
    cases perms with
    | obj pf =>
        refine ih (setKey base cat _) k ?_
        rw [getKey_setKey]
        by_cases hk : k = cat <;> simp [hk, h]
    | bool b => exact ih base k h
    | null => exact ih base k h

theorem valWF_of_getKey (o : Obj) (k : String) (v : JVal)
    (h : DocWF o) (hk : getKey o k = some v) : valWF v := by
  unfold getKey at hk
  cases hfind : o.find? (fun p => p.1 == k) with
  | none => rw [hfind] at hk; simp at hk
  | some p =>
      rw [hfind] at hk
      simp only [Option.map] at hk
      injection hk with hk2
      have hp : p ∈ o := List.mem_of_find?_eq_some hfind
      exact hk2 ▸ h.2 p hp

theorem docWF_setKey (o : Obj) (k : String) (v : JVal)
    (h : DocWF o) (hv : valWF v) : DocWF (setKey o k v) := by
  refine ⟨nodupKeys_setKey o k v h.1, ?_⟩
  intro kv hkv
  rcases mem_setKey o k v kv hkv with h1 | h2
  · exact h.2 kv h1
  · rw [h2]
    exact hv

theorem nodup_keys_fieldsOf (o : Obj) (k : String) (h : DocWF o) :
    (keys (fieldsOf (getKey o k))).Nodup := by
  cases hk : getKey o k with
  | none => simp [fieldsOf, keys]
  | some v =>
      have hv := valWF_of_getKey o k v h hk
      cases v with
      | obj f => exact hv
      | bool b => simp [fieldsOf, keys]
      | null => exact absurd hv (by simp [valWF])

theorem docWF_nil : DocWF [] := ⟨List.nodup_nil, by simp⟩

theorem setPath_pair (o : Obj) (c a : String) (v : Bool) (h : DocWF o) :
    setPath o [c, a] v =
      some (setKey o c (.obj (setKey (fieldsOf (getKey o c)) a (.bool v)))) := by
  cases hk : getKey o c with
  | none => simp [setPath, hk, fieldsOf]
  | some w =>
      have hw := valWF_of_getKey o c w h hk
      cases w with
      | obj f => simp [setPath, hk, fieldsOf]
      | bool b => simp [setPath, hk, fieldsOf]
      | null => exact absurd hw (by simp [valWF])

theorem docWF_setPath_pair (o : Obj) (c a : String) (v : Bool) (h : DocWF o) :
    DocWF (setKey o c (.obj (setKey (fieldsOf (getKey o c)) a (.bool v)))) := by
  refine docWF_setKey o c _ h ?_
  show (keys (setKey (fieldsOf (getKey o c)) a (.bool v))).Nodup
  exact nodupKeys_setKey _ a _ (nodup_keys_fieldsOf o c h)

theorem leaf_eq_getKey_fieldsOf (o : Obj) (c a : String) :
    leaf o c a = getKey (fieldsOf (getKey o c)) a := by
  unfold leaf
  cases hk : getKey o c with
  | none => simp [fieldsOf, getKey_nil]
  | some w => cases w <;> simp [fieldsOf, getKey_nil]

theorem leaf_setPath_pair_same (o f : Obj) (c a : String) (v : Bool) :
    leaf (setKey o c (.obj (setKey f a (.bool v)))) c a = some (.bool v) := by
  unfold leaf
  rw [getKey_setKey, if_pos rfl]
  show getKey (setKey f a (.bool v)) a = some (.bool v)
  rw [getKey_setKey, if_pos rfl]

theorem leaf_setPath_pair_other (o : Obj) (c a c2 a2 : String) (v : Bool)
    (hne : ¬ (c2 = c ∧ a2 = a)) :
    leaf (setKey o c2 (.obj (setKey (fieldsOf (getKey o c2)) a2 (.bool v)))) c a
      = leaf o c a := by
  by_cases hc : c2 = c
  · subst hc
    have ha : ¬ a = a2 := fun hh => hne ⟨rfl, hh.symm⟩
    unfold leaf
    rw [getKey_setKey, if_pos rfl]
    show getKey (setKey (fieldsOf (getKey o c2)) a2 (.bool v)) a =
      match getKey o c2 with
      | some (.obj p) => getKey p a
      | _ => none
    rw [getKey_setKey, if_neg ha]
    rw [← leaf_eq_getKey_fieldsOf]
    rfl
  · unfold leaf
    rw [getKey_setKey, if_neg (fun hh : c = c2 => hc hh.symm)]

theorem leaf_some_elim (o : Obj) (c a : String) (w : JVal)
    (h : leaf o c a = some w) :
    ∃ p, getKey o c = some (.obj p) ∧ getKey p a = some w := by
  unfold leaf at h
  cases hk : getKey o c with
  | none => rw [hk] at h; simp at h
  | some v =>
      rw [hk] at h
      cases v with
      | obj p => exact ⟨p, rfl, h⟩
      | bool b => simp at h
      | null => simp at h

theorem leaf_mergePermissions (base ov : Obj) (c a : String) (b : Bool)
    (hwf : DocWF ov) (h : leaf ov c a = some (.bool b)) :
    leaf (mergePermissions base ov) c a = some (.bool b) := by
  obtain ⟨p, hp, hpa⟩ := leaf_some_elim ov c a _ h
  have hobj := getKey_mergePermissions_obj ov base c p hwf.1 hp
  have hpn : (keys p).Nodup := valWF_of_getKey ov c _ hwf hp
  unfold leaf
  rw [hobj]
  exact getKey_spread_some p _ a _ hpn hpa

theorem walkVal_pair_of_leaf (o : Obj) (c a : String) (b : Bool)
    (h : leaf o c a = some (.bool b)) :
    walkVal (.obj o) [c, a] = b := by
  obtain ⟨p, hp, hpa⟩ := leaf_some_elim o c a _ h
  show (match getKey o c with
        | some v => walkVal v [a]
        | none => false) = b
  rw [hp]
  show (match getKey p a with
        | some v => walkVal v []
        | none => false) = b
  rw [hpa]
  cases b <;> rfl

theorem walkVal_eq_true_iff : ∀ (parts : List String) (v : JVal),
    walkVal v parts = true ↔ pathLookup v parts = some (.bool true) := by
  intro parts
  induction parts with
  | nil =>
      intro v
      cases v with
      | bool b => cases b <;> simp [walkVal, pathLookup, isTrue]
      | null => simp [walkVal, pathLookup, isTrue]
      | obj f => simp [walkVal, pathLookup, isTrue]
  | cons p ps ih =>
      intro v
      cases v with
      | bool b => simp [walkVal, pathLookup]
      | null => simp [walkVal, pathLookup]
      | obj fields =>
          show (match getKey fields p with
                | some v => walkVal v ps
                | none => false) = true ↔
               (match getKey fields p with
                | some v => pathLookup v ps
                | none => none) = some (.bool true)
          cases getKey fields p with
          | none => simp
          | some w => exact ih w

theorem filter_map_update (l : List UserPermRec) (f : UserPermRec → UserPermRec)
    (q : UserPermRec → Bool) (hq : ∀ p, q (f p) = q p) :
    (l.map f).filter q = (l.filter q).map f := by
  rw [List.filter_map]
  congr 1
  apply List.filter_congr
  intro p _
  exact hq p

theorem permMatches_update (ctx : Ctx) (u : String) (r : UserPermRec)
    (c e : Option Obj) (src : Option String) (t : Nat) (p : UserPermRec) :
    permMatches ctx u (if p.id == r.id then
        { p with custom_permissions := c, effective_permissions := e,
                 source := src, updated_at := t }
      else p) = permMatches ctx u p := by
  by_cases h : p.id == r.id <;> simp [h, permMatches]

theorem permMatches_orNull (ctx : Ctx) (u : String) (p : UserPermRec)
    (h1 : p.user_id = u) (h2 : p.organization_id = orNull ctx.orgId)
    (h3 : p.team_id = orNull ctx.teamId) :
    permMatches ctx u p = true := by
  unfold permMatches orNull at *
  rw [h1, h2, h3]
  cases ho : strTruthy ctx.orgId <;> cases ht : strTruthy ctx.teamId <;>
    simp [ho, ht]

theorem getUser_congr (s s' : Store) (u : String) (h : s'.users = s.users) :
    getUser s' u = getUser s u := by
  unfold getUser
  rw [h]

theorem getEffectivePermissions_cached (s : Store) (u : String) (ctx : Ctx)
    (user : UserRec) (row : UserPermRec) (eff : Obj)
    (hu : getUser s u = some user)
    (hm : s.userPermissions.filter (permMatches ctx u) = [row])
    (he : row.effective_permissions = some eff) :
    getEffectivePermissions s u ctx = .ok (eff, s) := by
  simp only [getEffectivePermissions, hu, hm, mostRecent, List.foldl, he]

theorem checkPermission_cached (s : Store) (u perm : String) (ctx : Ctx)
    (user : UserRec) (row : UserPermRec) (eff : Obj)
    (hu : getUser s u = some user)
    (hm : s.userPermissions.filter (permMatches ctx u) = [row])
    (he : row.effective_permissions = some eff) :
    checkPermission s u perm ctx = .ok (walkVal (.obj eff) (splitDot perm), s) := by
  unfold checkPermission
  rw [getEffectivePermissions_cached s u ctx user row eff hu hm he]

/-- The custom-override document produced by one grant/revoke: the prior
overrides with the `cat.act` leaf set to `v` (the shape `setPath` produces
on a two-segment path, by `setPath_pair`). -/
def overrideWith (c0 : Obj) (cat act : String) (v : Bool) : Obj :=
  setKey c0 cat (.obj (setKey (fieldsOf (getKey c0 cat)) act (.bool v)))

theorem overrideWith_def (c0 : Obj) (cat act : String) (v : Bool) :
    overrideWith c0 cat act v =
      setKey c0 cat (.obj (setKey (fieldsOf (getKey c0 cat)) act (.bool v))) := rfl

theorem updateCustomPermission_spec_none (s : Store) (u perm cat act : String)
    (v : Bool) (ctx : Ctx) (user : UserRec)
    (hu : getUser s u = some user)
    (hsplit : splitDot perm = [cat, act])
    (hm : s.userPermissions.filter (permMatches ctx u) = []) :
    ∃ s' row',
      updateCustomPermission s u perm v ctx = .ok s'
      ∧ s'.users = s.users
      ∧ s'.templates = s.templates
      ∧ s'.userPermissions.filter (permMatches ctx u) = [row']
      ∧ row'.custom_permissions = some (overrideWith [] cat act v)
      ∧ row'.effective_permissions =
          some (mergePermissions (DEFAULT_ROLE_PERMISSIONS user.role)
            (overrideWith [] cat act v)) := by
  have hsing : singleRow (s.userPermissions.filter (permMatches ctx u)) = none := by
    rw [hm]; rfl
  have hsp : setPath [] [cat, act] v = some (overrideWith [] cat act v) := by
    rw [overrideWith_def]
    exact setPath_pair [] cat act v docWF_nil
  refine ⟨{ s with
      userPermissions := s.userPermissions ++
        [{ id := s.nextId, user_id := u,
           organization_id := orNull ctx.orgId, team_id := orNull ctx.teamId,
           template_id := none, source := some "custom",
           custom_permissions := some (overrideWith [] cat act v),
           effective_permissions :=
             some (mergePermissions (DEFAULT_ROLE_PERMISSIONS user.role)
               (overrideWith [] cat act v)),
           updated_at := s.now }],
      nextId := s.nextId + 1, now := s.now + 1 },
    { id := s.nextId, user_id := u,
      organization_id := orNull ctx.orgId, team_id := orNull ctx.teamId,
      template_id := none, source := some "custom",
      custom_permissions := some (overrideWith [] cat act v),
      effective_permissions :=
        some (mergePermissions (DEFAULT_ROLE_PERMISSIONS user.role)
          (overrideWith [] cat act v)),
      updated_at := s.now },
    ?_, rfl, rfl, ?_, rfl, rfl⟩
  · simp only [updateCustomPermission, hsing, hsplit]
    rw [hsp]
    simp only [hu]
  · show (s.userPermissions ++ [_]).filter (permMatches ctx u) = _
    rw [List.filter_append, hm]
    have hq : permMatches ctx u
        { id := s.nextId, user_id := u,
          organization_id := orNull ctx.orgId, team_id := orNull ctx.teamId,
          template_id := none, source := some "custom",
          custom_permissions := some (overrideWith [] cat act v),
          effective_permissions :=
            some (mergePermissions (DEFAULT_ROLE_PERMISSIONS user.role)
              (overrideWith [] cat act v)),
          updated_at := s.now } = true :=
      permMatches_orNull ctx u _ rfl rfl rfl
    simp [List.filter_cons, hq]

theorem updateCustomPermission_spec_one (s : Store) (u perm cat act : String)
    (v : Bool) (ctx : Ctx) (user : UserRec) (row : UserPermRec)
    (hu : getUser s u = some user)
    (hsplit : splitDot perm = [cat, act])
    (hm : s.userPermissions.filter (permMatches ctx u) = [row])
    (hwf : DocWF (row.custom_permissions.getD [])) :
    ∃ s' row',
      updateCustomPermission s u perm v ctx = .ok s'
      ∧ s'.users = s.users
      ∧ s'.templates = s.templates
      ∧ s'.userPermissions.filter (permMatches ctx u) = [row']
      ∧ row'.custom_permissions =
          some (overrideWith (row.custom_permissions.getD []) cat act v)
      ∧ row'.effective_permissions =
          some (mergePermissions
            (applyTemplateMerge s (DEFAULT_ROLE_PERMISSIONS user.role) row.template_id)
            (overrideWith (row.custom_permissions.getD []) cat act v)) := by
  have hsing : singleRow (s.userPermissions.filter (permMatches ctx u)) = some row := by
    rw [hm]; rfl
  have hsp : setPath (row.custom_permissions.getD []) [cat, act] v =
      some (overrideWith (row.custom_permissions.getD []) cat act v) := by
    rw [overrideWith_def]
    exact setPath_pair _ cat act v hwf
  refine ⟨{ s with
      userPermissions := s.userPermissions.map (fun p =>
        if p.id == row.id then
          { p with
            custom_permissions :=
              some (overrideWith (row.custom_permissions.getD []) cat act v),
            effective_permissions :=
              some (mergePermissions
                (applyTemplateMerge s (DEFAULT_ROLE_PERMISSIONS user.role)
                  row.template_id)
                (overrideWith (row.custom_permissions.getD []) cat act v)),
            source := some "custom",
            updated_at := s.now }
        else p),
      now := s.now + 1 },
    { row with
      custom_permissions :=
        some (overrideWith (row.custom_permissions.getD []) cat act v),
      effective_permissions :=
        some (mergePermissions
          (applyTemplateMerge s (DEFAULT_ROLE_PERMISSIONS user.role) row.template_id)
          (overrideWith (row.custom_permissions.getD []) cat act v)),
      source := some "custom",
      updated_at := s.now },
    ?_, rfl, rfl, ?_, rfl, rfl⟩
  · simp only [updateCustomPermission, hsing, hsplit]
    rw [hsp]
    simp only [hu]
  · show (s.userPermissions.map _).filter (permMatches ctx u) = _
    rw [filter_map_update _ _ _ (permMatches_update ctx u row _ _ _ _), hm]
    simp

theorem grant_then_check_false (s1 : Store) (u p2 cat2 act2 : String) (ctx : Ctx)
    (user : UserRec) (row1 : UserPermRec) (c0 : Obj)
    (hu1 : getUser s1 u = some user)
    (hf1 : s1.userPermissions.filter (permMatches ctx u) = [row1])
    (hwf0 : DocWF c0)
    (hc1 : row1.custom_permissions = some (overrideWith c0 "tasks" "create" false))
    (hsplit2 : splitDot p2 = [cat2, act2])
    (hne : ¬ (cat2 = "tasks" ∧ act2 = "create")) :
    ∃ s2, grantPermission s1 u p2 ctx = .ok s2
      ∧ checkPermission s2 u "tasks.create" ctx = .ok (false, s2) := by
  have hwf1 : DocWF (overrideWith c0 "tasks" "create" false) := by
    rw [overrideWith_def]
    exact docWF_setPath_pair c0 "tasks" "create" false hwf0
  have hgd : row1.custom_permissions.getD [] = overrideWith c0 "tasks" "create" false := by
    rw [hc1]; rfl
  have hwfgd : DocWF (row1.custom_permissions.getD []) := by
    rw [hgd]; exact hwf1
  obtain ⟨s2, row2, hrun2, hus2, hts2, hf2, hc2, he2⟩ :=
    updateCustomPermission_spec_one s1 u p2 cat2 act2 true ctx user row1
      hu1 hsplit2 hf1 hwfgd
  rw [hgd] at hc2 he2
  have hleafc1 : leaf (overrideWith c0 "tasks" "create" false) "tasks" "create"
      = some (.bool false) := by
    rw [overrideWith_def]
    exact leaf_setPath_pair_same c0 _ "tasks" "create" false
  have hleafc2 : leaf (overrideWith (overrideWith c0 "tasks" "create" false)
      cat2 act2 true) "tasks" "create" = some (.bool false) := by
    rw [overrideWith_def (overrideWith c0 "tasks" "create" false) cat2 act2 true,
      leaf_setPath_pair_other _ "tasks" "create" cat2 act2 true hne]
    exact hleafc1
  have hwf2 : DocWF (overrideWith (overrideWith c0 "tasks" "create" false)
      cat2 act2 true) := by
    rw [overrideWith_def (overrideWith c0 "tasks" "create" false) cat2 act2 true]
    exact docWF_setPath_pair _ cat2 act2 true hwf1
  have hleafE : leaf (mergePermissions
      (applyTemplateMerge s1 (DEFAULT_ROLE_PERMISSIONS user.role) row1.template_id)
      (overrideWith (overrideWith c0 "tasks" "create" false) cat2 act2 true))
      "tasks" "create" = some (.bool false) :=
    leaf_mergePermissions _ _ "tasks" "create" false hwf2 hleafc2
  have hwalk := walkVal_pair_of_leaf _ "tasks" "create" false hleafE
  have hu2 : getUser s2 u = some user := (getUser_congr s1 s2 u hus2).trans hu1
  have hcheck := checkPermission_cached s2 u "tasks.create" ctx user row2 _ hu2 hf2 he2
  refine ⟨s2, hrun2, ?_⟩
  rw [hcheck, show splitDot "tasks.create" = ["tasks", "create"] from rfl, hwalk]

/-- A manager-role user in organization `org1`, used as concrete input. -/
def uA : UserRec := { id := "A", role := .manager, organization_id := "org1", active := true }

/-- A member user in organization `org1`. -/
def uB : UserRec := { id := "B", role := .member, organization_id := "org1", active := true }

/-- A member user in organization `org1`. -/
def uC : UserRec := { id := "C", role := .member, organization_id := "org1", active := true }

/-- A member user in organization `org1`. -/
def uD : UserRec := { id := "D", role := .member, organization_id := "org1", active := true }

/-- Active direct edge: A manages B (team `t1`). -/
def eAB : EdgeRec :=
  { organization_id := "org1", manager_id := "A",
    manages_user_id := "B", team_id := some "t1", scope := .team, level := 1,
    active := true, started_at := 0 }

/-- Active direct edge: B manages C (team `t1`). -/
def eBC : EdgeRec :=
  { organization_id := "org1", manager_id := "B",
    manages_user_id := "C", team_id := some "t1", scope := .team, level := 1,
    active := true, started_at := 1 }

/-- Active direct edge: C manages D (team `t1`). -/
def eCD : EdgeRec :=
  { organization_id := "org1", manager_id := "C",
    manages_user_id := "D", team_id := some "t1", scope := .team, level := 1,
    active := true, started_at := 2 }

/-- Active direct edge: B manages A (team `t1`) - closes a 2-cycle with
`eAB`. -/
def eBA : EdgeRec :=
  { organization_id := "org1", manager_id := "B",
    manages_user_id := "A", team_id := some "t1", scope := .team, level := 1,
    active := true, started_at := 1 }

/-- A store holding only user A, with no permission assignments. -/
def sOnlyA : Store :=
  { users := [uA], userPermissions := [], templates := [],
    edges := [], nextId := 0, now := 0 }

/-- A store with the chain users A-D and a given edge list. -/
def sChain (es : List EdgeRec) : Store :=
  { users := [uA, uB, uC, uD], userPermissions := [], templates := [],
    edges := es, nextId := 0, now := 3 }

/-- Corrupted store in which the active level-1 edges form the 2-cycle
A to B to A. -/
def sCyc2 : Store :=
  { users := [uA, uB], userPermissions := [], templates := [],
    edges := [eAB, eBA], nextId := 0, now := 2 }

/-- Store with edges A to B and B to C, so A transitively manages C. -/
def sCyc3 : Store :=
  { users := [uA, uB, uC], userPermissions := [],
    templates := [], edges := [eAB, eBC], nextId := 0, now := 2 }

/-- The edge `assignManager` inserts for the cycle-closing call C to A on
`sCyc3`. -/
def cycEdgeCA : EdgeRec :=
  { organization_id := "org1", manager_id := "C",
    manages_user_id := "A", team_id := some "t1", scope := .team, level := 1,
    active := true, started_at := 2 }

/-- A cached effective document that no longer matches any merge input:
`tasks.create` is false although user A's manager role default grants it. -/
def staleDoc : Obj := [("tasks", .obj [("create", .bool false)])]

/-- An assignment row carrying only the stale cached document. -/
def staleRow : UserPermRec :=
  { id := 7, user_id := "A",
    organization_id := none, team_id := none, template_id := none,
    source := none, custom_permissions := none,
    effective_permissions := some staleDoc, updated_at := 1 }

/-- Store for the stale-cache scenario. -/
def sStale : Store :=
  { users := [uA], userPermissions := [staleRow],
    templates := [], edges := [], nextId := 8, now := 2 }

/-- A permission template granting `resources.manage` and revoking
`resources.book`. -/
def tmplX : TemplateRec :=
  { id := "T", organization_id := none,
    name := "tpl", permissions :=
    [("resources", .obj [("manage", .bool true), ("book", .bool false)])] }

/-- Custom overrides granting `tasks.create`. -/
def customY : Obj := [("tasks", .obj [("create", .bool true)])]

/-- An assignment row for user A carrying custom overrides and an (empty)
cached document. -/
def rowY : UserPermRec :=
  { id := 3, user_id := "A", organization_id := none,
    team_id := none, template_id := none, source := some "custom",
    custom_permissions := some customY, effective_permissions := some [],
    updated_at := 1 }

/-- Store with user A, one assignment row and one template. -/
def sTpl : Store :=
  { users := [uA], userPermissions := [rowY],
    templates := [tmplX], edges := [], nextId := 9, now := 5 }

/-- Custom overrides revoking `resources.manage`. -/
def customX : Obj := [("resources", .obj [("manage", .bool false)])]

/-- C9: for every store, user identifier, team scope and scope kind,
`assignManager(u, u, ...)` is rejected with the self-management error and
no edge is created (no store is returned). -/
theorem assignManager_self_rejected (s : Store) (u : String)
    (teamId : Option String) (scope : Scope) :
    assignManager s u u teamId scope = .error .selfManagement := by
  simp [assignManager]

/-- C7: when the user exists and no `user_permissions` row matches the
requested (user, org-scope, team-scope) filter, `getEffectivePermissions`
returns exactly the role-default document of the user's base role,
unmerged, and leaves the store untouched. -/
theorem getEffectivePermissions_no_assignment (s : Store) (u : String)
    (ctx : Ctx) (user : UserRec)
    (hu : getUser s u = some user)
    (hnone : s.userPermissions.filter (permMatches ctx u) = []) :
    getEffectivePermissions s u ctx = .ok (DEFAULT_ROLE_PERMISSIONS user.role, s) := by
  simp only [getEffectivePermissions, hu, hnone, mostRecent, List.foldl]

/-- C7 witness: a manager user with an empty assignment table receives the
manager default document. -/
theorem getEffectivePermissions_no_assignment_witness :
    getEffectivePermissions sOnlyA "A" {} =
      .ok (DEFAULT_ROLE_PERMISSIONS .manager, sOnlyA) :=
  getEffectivePermissions_no_assignment sOnlyA "A" {} uA rfl rfl

/-- C8: any category present in the base document is still present after
`mergePermissions`; the merge overrides leaves inside categories but never
removes a category. -/
theorem mergePermissions_preserves_categories (base override : Obj) (cat : String)
    (h : (getKey base cat).isSome = true) :
    (getKey (mergePermissions base override) cat).isSome = true :=
  getKey_mergePermissions_isSome override base cat h

/-- C8 witness: the `tasks` category of the manager default survives a
merge whose override carries a non-object `tasks` entry and a new
category. -/
theorem mergePermissions_preserves_categories_witness :
    (getKey managerPerms "tasks").isSome = true
    ∧ (getKey (mergePermissions managerPerms
        [("tasks", .bool false), ("extra", .obj [("x", .bool true)])])
        "tasks").isSome = true :=
  ⟨rfl, mergePermissions_preserves_categories managerPerms
    [("tasks", .bool false), ("extra", .obj [("x", .bool true)])] "tasks" rfl⟩

/-- C5: when the effective document resolves, `checkPermission` returns a
boolean for every dotted path - the walk of the document - and that
boolean is `true` exactly when the path descends to a literal `true` leaf;
a missing category or action at any step, or any non-`true` leaf, yields
`false`, and no path-dependent error is possible. -/
theorem checkPermission_fail_closed (s : Store) (u perm : String) (ctx : Ctx)
    (eff : Obj) (s' : Store)
    (h : getEffectivePermissions s u ctx = .ok (eff, s')) :
    checkPermission s u perm ctx = .ok (walkVal (.obj eff) (splitDot perm), s')
      ∧ (walkVal (.obj eff) (splitDot perm) = true
          ↔ pathLookup (.obj eff) (splitDot perm) = some (.bool true)) := by
  refine ⟨?_, walkVal_eq_true_iff _ _⟩
  unfold checkPermission
  rw [h]

/-- C5 witness: an unknown path on a real user yields `false` without an
error. -/
theorem checkPermission_fail_closed_witness :
    checkPermission sOnlyA "A" "unknown.path" {} = .ok (false, sOnlyA) :=
  (checkPermission_fail_closed sOnlyA "A" "unknown.path" {}
    (DEFAULT_ROLE_PERMISSIONS .manager) sOnlyA rfl).1.trans rfl

/-- C2 (code bug): `getEffectivePermissions` returns the stored cached
effective document whenever one is present, although an input has changed:
in `sStale` the cache denies `tasks.create` while the current role default
(the only merge input, there being no template and no custom overrides)
grants it, so a recompute would return the manager default; the code
nevertheless returns the stale cache. -/
theorem getEffectivePermissions_stale_cache_returned :
    getEffectivePermissions sStale "A" {} = .ok (staleDoc, sStale)
    ∧ recomputeEffective sStale (DEFAULT_ROLE_PERMISSIONS uA.role)
        staleRow.template_id staleRow.custom_permissions
        = DEFAULT_ROLE_PERMISSIONS .manager
    ∧ staleDoc ≠ DEFAULT_ROLE_PERMISSIONS .manager := by
  refine ⟨rfl, rfl, ?_⟩
  intro h
  have hlen := congrArg List.length h
  simp [staleDoc, DEFAULT_ROLE_PERMISSIONS, managerPerms] at hlen

/-- C4: in the recomputed effective document, a leaf present in the custom
overrides carries the custom value (custom wins over the template and the
role default), and a leaf present in the applied template but absent from
the custom overrides carries the template value (template wins over the
role default). -/
theorem recomputeEffective_precedence (s : Store) (r c : Obj) (tid : String)
    (tmpl : TemplateRec) (cat act : String)
    (htid : ¬ tid = "")
    (ht : getTemplate s tid = some tmpl)
    (hndc : (keys c).Nodup)
    (hndt : (keys tmpl.permissions).Nodup) :
    (∀ cp b, getKey c cat = some (.obj cp) → (keys cp).Nodup →
        getKey cp act = some (.bool b) →
        leaf (recomputeEffective s r (some tid) (some c)) cat act = some (.bool b))
    ∧ (∀ tp b, getKey tmpl.permissions cat = some (.obj tp) → (keys tp).Nodup →
        getKey tp act = some (.bool b) → leaf c cat act = none →
        leaf (recomputeEffective s r (some tid) (some c)) cat act = some (.bool b)) := by
  have hbase : recomputeEffective s r (some tid) (some c)
      = mergePermissions (mergePermissions r tmpl.permissions) c := by
    simp [recomputeEffective, applyTemplateMerge, htid, ht]
  rw [hbase]
  constructor
  · intro cp b hcp hnp hact
    unfold leaf
    rw [getKey_mergePermissions_obj c (mergePermissions r tmpl.permissions) cat cp hndc hcp]
    exact getKey_spread_some cp _ act _ hnp hact
  · intro tp b htp hntp hact hnone
    have hbase2 : getKey (mergePermissions r tmpl.permissions) cat
        = some (.obj (spread (fieldsOf (getKey r cat)) tp)) :=
      getKey_mergePermissions_obj tmpl.permissions r cat tp hndt htp
    cases hc : getKey c cat with
    | none =>
        unfold leaf
        rw [getKey_mergePermissions_none c _ cat hc, hbase2]
        exact getKey_spread_some tp _ act _ hntp hact
    | some v =>
        cases v with
        | obj cp =>
            have hcpact : getKey cp act = none := by
              unfold leaf at hnone
              rw [hc] at hnone
              exact hnone
            unfold leaf
            rw [getKey_mergePermissions_obj c _ cat cp hndc hc]
            show getKey (spread
              (fieldsOf (getKey (mergePermissions r tmpl.permissions) cat)) cp) act
              = some (.bool b)
            rw [getKey_spread_none cp _ act hcpact, hbase2]
            show getKey (spread (fieldsOf (getKey r cat)) tp) act = some (.bool b)
            exact getKey_spread_some tp _ act _ hntp hact
        | bool bb =>
            unfold leaf
            rw [getKey_mergePermissions_nonobj c _ cat _ hndc hc
                (fun f hf => JVal.noConfusion hf), hbase2]
            exact getKey_spread_some tp _ act _ hntp hact
        | null =>
            unfold leaf
            rw [getKey_mergePermissions_nonobj c _ cat _ hndc hc
                (fun f hf => JVal.noConfusion hf), hbase2]
            exact getKey_spread_some tp _ act _ hntp hact

/-- C4 witness: with template `tmplX` and custom overrides `customX`,
`resources.manage` (in both) takes the custom value `false`, and
`resources.book` (template only) takes the template value `false`
overriding the member default `true`. -/
theorem recomputeEffective_precedence_witness :
    leaf (recomputeEffective sTpl memberPerms (some "T") (some customX))
      "resources" "manage" = some (.bool false)
    ∧ leaf (recomputeEffective sTpl memberPerms (some "T") (some customX))
      "resources" "book" = some (.bool false) := by
  have h1 := (recomputeEffective_precedence sTpl memberPerms customX "T" tmplX
    "resources" "manage" (by decide) rfl (by decide) (by decide)).1
  have h2 := (recomputeEffective_precedence sTpl memberPerms customX "T" tmplX
    "resources" "book" (by decide) rfl (by decide) (by decide)).2
  exact ⟨h1 [("manage", .bool false)] false rfl (by decide) rfl,
    h2 [("manage", .bool true), ("book", .bool false)] false rfl (by decide) rfl rfl⟩

/-- C10: for an existing user, an existing template, and a single matching
assignment row, `applyTemplate` stores as the new cached effective
document exactly the merge of the user's role default with the template's
document - the row's recorded custom overrides contribute nothing - while
the `custom_permissions` field itself is left in place unchanged. -/
theorem applyTemplate_recomputes_without_custom (s : Store) (u tid : String)
    (ctx : Ctx) (user : UserRec) (tmpl : TemplateRec) (row : UserPermRec)
    (ht : getTemplate s tid = some tmpl)
    (hu : getUser s u = some user)
    (hrow : s.userPermissions.filter (permMatches ctx u) = [row]) :
    applyTemplate s u tid ctx =
      .ok ({ row with
             template_id := some tid,
             source := some "template",
             effective_permissions := some (mergePermissions
               (DEFAULT_ROLE_PERMISSIONS user.role) tmpl.permissions),
             updated_at := s.now },
        { s with
          userPermissions := s.userPermissions.map (fun p =>
            if p.id == row.id then
              { p with
                template_id := some tid,
                source := some "template",
                effective_permissions := some (mergePermissions
                  (DEFAULT_ROLE_PERMISSIONS user.role) tmpl.permissions),
                updated_at := s.now }
            else p),
          now := s.now + 1 }) := by
  have hsing : singleRow (s.userPermissions.filter (permMatches ctx u)) = some row := by
    rw [hrow]; rfl
  simp only [applyTemplate, ht, hsing, hu]

/-- C10 witness: applying template `tmplX` to user A over row `rowY`
(which carries custom overrides granting `tasks.create`) caches exactly
the merge of the manager default with the template, and keeps `rowY`'s
custom overrides field as it was. -/
theorem applyTemplate_recomputes_without_custom_witness :
    applyTemplate sTpl "A" "T" {} =
      .ok ({ rowY with
             template_id := some "T",
             source := some "template",
             effective_permissions := some (mergePermissions
               (DEFAULT_ROLE_PERMISSIONS uA.role) tmplX.permissions),
             updated_at := sTpl.now },
        { sTpl with
          userPermissions := sTpl.userPermissions.map (fun p =>
            if p.id == rowY.id then
              { p with
                template_id := some "T",
                source := some "template",
                effective_permissions := some (mergePermissions
                  (DEFAULT_ROLE_PERMISSIONS uA.role) tmplX.permissions),
                updated_at := sTpl.now }
            else p),
          now := sTpl.now + 1 }) :=
  applyTemplate_recomputes_without_custom sTpl "A" "T" {} uA tmplX rowY rfl rfl rfl

/-- C1 (amended): `assignManager` performs no cycle detection: for any two
distinct existing users of the same organization with no active edge for
the exact tuple, the call succeeds and appends a new active edge - even
when the proposed managed user already transitively manages the proposed
manager, so the graph of active level-1 edges need not stay acyclic. -/
theorem assignManager_no_cycle_check (s : Store) (mgr mng : String)
    (teamId : Option String) (scope : Scope) (m1 m2 : UserRec)
    (hne : ¬ mgr = mng)
    (h1 : getUser s mgr = some m1)
    (h2 : getUser s mng = some m2)
    (horg : m1.organization_id = m2.organization_id)
    (hdup : s.edges.filter (fun e =>
        e.manager_id == mgr && e.manages_user_id == mng
          && e.team_id == orNull teamId && e.scope == scope && e.active) = []) :
    assignManager s mgr mng teamId scope =
      .ok ({ organization_id := m1.organization_id, manager_id := mgr,
             manages_user_id := mng, team_id := orNull teamId, scope := scope,
             level := calculateManagementLevel s mgr mng, active := true,
             started_at := s.now },
        { s with
          edges := s.edges ++
            [{ organization_id := m1.organization_id, manager_id := mgr,
               manages_user_id := mng, team_id := orNull teamId, scope := scope,
               level := calculateManagementLevel s mgr mng, active := true,
               started_at := s.now }],
          now := s.now + 1 }) := by
  have hb : (mgr == mng) = false := by simp [hne]
  have hborg : (m1.organization_id == m2.organization_id) = true := by simp [horg]
  have hsing : singleRow (s.edges.filter (fun e =>
      e.manager_id == mgr && e.manages_user_id == mng
        && e.team_id == orNull teamId && e.scope == scope && e.active)) = none := by
    rw [hdup]; rfl
  simp only [assignManager, hb, Bool.false_eq_true, if_false, h1, h2, hborg,
    Bool.not_true, hsing]

/-- C1 witness for the amended claim: on `sCyc3` (A manages B, B manages
C) the cycle-closing call C to A succeeds and appends the edge. -/
theorem assignManager_no_cycle_check_witness :
    assignManager sCyc3 "C" "A" (some "t1") Scope.team =
      .ok ({ organization_id := uC.organization_id, manager_id := "C",
             manages_user_id := "A", team_id := orNull (some "t1"),
             scope := .team,
             level := calculateManagementLevel sCyc3 "C" "A", active := true,
             started_at := sCyc3.now },
        { sCyc3 with
          edges := sCyc3.edges ++
            [{ organization_id := uC.organization_id, manager_id := "C",
               manages_user_id := "A", team_id := orNull (some "t1"),
               scope := .team,
               level := calculateManagementLevel sCyc3 "C" "A", active := true,
               started_at := sCyc3.now }],
          now := sCyc3.now + 1 }) :=
  assignManager_no_cycle_check sCyc3 "C" "A" (some "t1") .team uC uA
    (by decide) rfl rfl rfl rfl

/-- C1 counterexample: in `sCyc3`, A already transitively manages C (the
full report set of A is exactly B and C), yet `assignManager(C, A)` is
not rejected: it returns the new active level-1 edge C to A and stores
it, closing a cycle among active level-1 edges. -/
theorem assignManager_cycle_accepted_cex :
    getAllReportsFuel sCyc3 3 "A" = some [uB, uC]
    ∧ assignManager sCyc3 "C" "A" (some "t1") .team =
        .ok (cycEdgeCA,
          { sCyc3 with edges := sCyc3.edges ++ [cycEdgeCA], now := 3 }) :=
  ⟨rfl, rfl⟩

theorem getAllReportsFuel_succ (s : Store) (n : Nat) (managerId : String) :
    getAllReportsFuel s (n + 1) managerId =
      (((getDirectReports s managerId none).foldl
          (fun acc report =>
            acc.bind (fun (st : List String × List UserRec) =>
              (getAllReportsFuel s n report.id).map (fun indirect =>
                indirect.foldl
                  (fun st2 u =>
                    if st2.1.contains u.id then st2
                    else (st2.1 ++ [u.id], st2.2 ++ [u]))
                  st)))
          (some ((getDirectReports s managerId none).map (·.id),
            getDirectReports s managerId none))).map (·.2)) := rfl

/-- C3 (amended): on the chain A to B to C to D, in whatever order the
three direct edges were inserted, `getAllReports(A)` completes (fuel 4
suffices) and returns exactly the users B, C, D, each once; but because
the de-duplication set is rebuilt inside every recursive call, the
recursion does not terminate on stored data whose active level-1 edges
contain a cycle (see the counterexample). -/
theorem getAllReports_chain_exact (es : List EdgeRec)
    (h : es.Perm [eAB, eBC, eCD]) :
    getAllReportsFuel (sChain es) 4 "A" = some [uB, uC, uD] := by
  have hfA : (sChain es).edges.filter (fun e =>
      e.manager_id == "A" && e.active && e.level == 1
        && (!strTruthy none || e.team_id == none)) = [eAB] := by
    have h2 := h.filter (fun e =>
      e.manager_id == "A" && e.active && e.level == 1
        && (!strTruthy none || e.team_id == none))
    have h3 : [eAB, eBC, eCD].filter (fun e =>
        e.manager_id == "A" && e.active && e.level == 1
          && (!strTruthy none || e.team_id == none)) = [eAB] := rfl
    rw [h3] at h2
    exact List.perm_singleton.mp h2
  have hfB : (sChain es).edges.filter (fun e =>
      e.manager_id == "B" && e.active && e.level == 1
        && (!strTruthy none || e.team_id == none)) = [eBC] := by
    have h2 := h.filter (fun e =>
      e.manager_id == "B" && e.active && e.level == 1
        && (!strTruthy none || e.team_id == none))
    have h3 : [eAB, eBC, eCD].filter (fun e =>
        e.manager_id == "B" && e.active && e.level == 1
          && (!strTruthy none || e.team_id == none)) = [eBC] := rfl
    rw [h3] at h2
    exact List.perm_singleton.mp h2
  have hfC : (sChain es).edges.filter (fun e =>
      e.manager_id == "C" && e.active && e.level == 1
        && (!strTruthy none || e.team_id == none)) = [eCD] := by
    have h2 := h.filter (fun e =>
      e.manager_id == "C" && e.active && e.level == 1
        && (!strTruthy none || e.team_id == none))
    have h3 : [eAB, eBC, eCD].filter (fun e =>
        e.manager_id == "C" && e.active && e.level == 1
          && (!strTruthy none || e.team_id == none)) = [eCD] := rfl
    rw [h3] at h2
    exact List.perm_singleton.mp h2
  have hfD : (sChain es).edges.filter (fun e =>
      e.manager_id == "D" && e.active && e.level == 1
        && (!strTruthy none || e.team_id == none)) = [] := by
    have h2 := h.filter (fun e =>
      e.manager_id == "D" && e.active && e.level == 1
        && (!strTruthy none || e.team_id == none))
    have h3 : [eAB, eBC, eCD].filter (fun e =>
        e.manager_id == "D" && e.active && e.level == 1
          && (!strTruthy none || e.team_id == none)) = [] := rfl
    rw [h3] at h2
    exact h2.eq_nil
  have hdirA : getDirectReports (sChain es) "A" none = [uB] := by
    simp only [getDirectReports, hfA]
    rfl
  have hdirB : getDirectReports (sChain es) "B" none = [uC] := by
    simp only [getDirectReports, hfB]
    rfl
  have hdirC : getDirectReports (sChain es) "C" none = [uD] := by
    simp only [getDirectReports, hfC]
    rfl
  have hdirD : getDirectReports (sChain es) "D" none = [] := by
    simp only [getDirectReports, hfD]
    rfl
  have h1 : getAllReportsFuel (sChain es) 1 "D" = some [] := by
    rw [getAllReportsFuel_succ, hdirD]
    rfl
  have h2 : getAllReportsFuel (sChain es) 2 "C" = some [uD] := by
    rw [getAllReportsFuel_succ, hdirC]
    simp only [List.foldl_cons, List.foldl_nil, List.map_cons, List.map_nil]
    rw [show uD.id = "D" from rfl, h1]
    rfl
  have h3 : getAllReportsFuel (sChain es) 3 "B" = some [uC, uD] := by
    rw [getAllReportsFuel_succ, hdirB]
    simp only [List.foldl_cons, List.foldl_nil, List.map_cons, List.map_nil]
    rw [show uC.id = "C" from rfl, h2]
    rfl
  rw [getAllReportsFuel_succ, hdirA]
  simp only [List.foldl_cons, List.foldl_nil, List.map_cons, List.map_nil]
  rw [show uB.id = "B" from rfl, h3]
  rfl

/-- C3 witness for the amended claim: a permuted insertion order of the
chain yields exactly B, C, D. -/
theorem getAllReports_chain_exact_witness :
    getAllReportsFuel (sChain [eCD, eAB, eBC]) 4 "A" = some [uB, uC, uD] :=
  getAllReports_chain_exact [eCD, eAB, eBC] (by decide)

theorem getAllReportsFuel_cyc_none : ∀ n,
    getAllReportsFuel sCyc2 n "A" = none
      ∧ getAllReportsFuel sCyc2 n "B" = none := by
  intro n
  induction n with
  | zero => exact ⟨rfl, rfl⟩
  | succ n ih =>
    refine ⟨?_, ?_⟩
    · rw [getAllReportsFuel_succ,
        show getDirectReports sCyc2 "A" none = [uB] from rfl]
      simp only [List.foldl_cons, List.foldl_nil, List.map_cons, List.map_nil]
      rw [show uB.id = "B" from rfl, ih.2]
      rfl
    · rw [getAllReportsFuel_succ,
        show getDirectReports sCyc2 "B" none = [uA] from rfl]
      simp only [List.foldl_cons, List.foldl_nil, List.map_cons, List.map_nil]
      rw [show uA.id = "A" from rfl, ih.1]
      rfl

/-- C3 counterexample: on the corrupted store `sCyc2`, whose active
level-1 edges form the cycle A to B to A, the recursion of
`getAllReports(A)` never completes: no amount of fuel makes the
fuel-indexed model return a value, because the visited-set is local to
each recursive call and does not stop the mutual descent. -/
theorem getAllReports_cycle_no_termination_cex :
    ¬ ∃ n, (getAllReportsFuel sCyc2 n "A").isSome = true := by
  rintro ⟨n, hn⟩
  rw [(getAllReportsFuel_cyc_none n).1] at hn
  simp at hn

/-- C6: after `revoke(u, "tasks.create", scope)` followed by a grant of
any different two-segment leaf under the same scope, `checkPermission(u,
"tasks.create", scope)` returns `false` - whatever the role default (and
any template) says - because the revoke stores an explicit `false`
override that the grant does not delete, and the override is re-merged on
top of role default and template on every recompute.  The hypothesis
allows either no matching assignment row or exactly one whose stored
custom overrides are well-formed. -/
theorem revoke_persists (s : Store) (u p2 cat2 act2 : String) (ctx : Ctx)
    (user : UserRec)
    (hu : getUser s u = some user)
    (hsplit2 : splitDot p2 = [cat2, act2])
    (hne : ¬ (cat2 = "tasks" ∧ act2 = "create"))
    (hm : s.userPermissions.filter (permMatches ctx u) = []
        ∨ ∃ row, s.userPermissions.filter (permMatches ctx u) = [row]
            ∧ DocWF (row.custom_permissions.getD [])) :
    ∃ s1 s2, revokePermission s u "tasks.create" ctx = .ok s1
      ∧ grantPermission s1 u p2 ctx = .ok s2
      ∧ checkPermission s2 u "tasks.create" ctx = .ok (false, s2) := by
  have hsplitTC : splitDot "tasks.create" = ["tasks", "create"] := rfl
  rcases hm with hm0 | ⟨row, hmr, hwfr⟩
  · obtain ⟨s1, row1, hrun1, hus1, hts1, hf1, hc1, he1⟩ :=
      updateCustomPermission_spec_none s u "tasks.create" "tasks" "create"
        false ctx user hu hsplitTC hm0
    have hu1 : getUser s1 u = some user := (getUser_congr s s1 u hus1).trans hu
    obtain ⟨s2, hrun2, hcheck⟩ :=
      grant_then_check_false s1 u p2 cat2 act2 ctx user row1 []
        hu1 hf1 docWF_nil hc1 hsplit2 hne
    exact ⟨s1, s2, hrun1, hrun2, hcheck⟩
  · obtain ⟨s1, row1, hrun1, hus1, hts1, hf1, hc1, he1⟩ :=
      updateCustomPermission_spec_one s u "tasks.create" "tasks" "create"
        false ctx user row hu hsplitTC hmr hwfr
    have hu1 : getUser s1 u = some user := (getUser_congr s s1 u hus1).trans hu
    obtain ⟨s2, hrun2, hcheck⟩ :=
      grant_then_check_false s1 u p2 cat2 act2 ctx user row1
        (row.custom_permissions.getD []) hu1 hf1 hwfr hc1 hsplit2 hne
    exact ⟨s1, s2, hrun1, hrun2, hcheck⟩

/-- C6 witness: on `sTpl` (user A with an existing assignment row carrying
custom overrides), revoking `tasks.create`, then granting the unrelated
leaf `resources.book`, leaves `tasks.create` denied even though the
manager role default grants it. -/
theorem revoke_persists_witness :
    ∃ s1 s2, revokePermission sTpl "A" "tasks.create" {} = .ok s1
      ∧ grantPermission s1 "A" "resources.book" {} = .ok s2
      ∧ checkPermission s2 "A" "tasks.create" {} = .ok (false, s2) :=
  revoke_persists sTpl "A" "resources.book" "resources" "book" {} uA
    rfl rfl (by decide) (Or.inr ⟨rowY, rfl, by decide⟩)

end TAYA
